import Mathlib

/-!
Verification of the botfront-external-trainer core against its specification.

The definitions below are shallow embeddings of `src/app/job_manager.py` and
`src/app/templates/train.py`.  External effects (the Kubernetes API, the S3
API, the filesystem) are modelled as explicit oracle arguments: each call the
Python code makes to such an API becomes an `Except`-valued input describing
the response the code observed, and the embedded function reproduces the
Python control flow on that response.
-/

namespace BET

/-- The `Status` enum of `job_manager.py` (lines 85-89). -/
inductive Status where
  | none
  | training
  | success
  | failed
deriving DecidableEq, Repr

/-- Model of `kubernetes.client.V1JobStatus`: the raw counters the
orchestrator reports on a Job object.  Each counter is either absent or a
count; Python truthiness (`if job_status.succeeded:`) holds exactly when the
counter is present and non-zero. -/
structure V1JobStatus where
  active : Option Nat
  succeeded : Option Nat
  failed : Option Nat
deriving DecidableEq, Repr

/-- Python truthiness of an optional counter (`None` and `0` are falsy). -/
def counterTruthy (o : Option Nat) : Bool := o.getD 0 ≠ 0

/-- The counter-derivation part of `K8sJobManager.status` (lines 242-253):
absent Job → `none`; else succeeded, then active, then failed, in that
order. -/
def statusOfJob (job : Option V1JobStatus) : Status :=
  match job with
  | Option.none => Status.none
  | Option.some s =>
    if counterTruthy s.succeeded then Status.success
    else if counterTruthy s.active then Status.training
    else if counterTruthy s.failed then Status.failed
    else Status.none

/-- `K8sJobManager._get_job` (lines 232-240).  The oracle argument is the
orchestrator's response to `read_namespaced_job`: either the Job object or
an `ApiException` carrying an HTTP status code.  A 404 is converted to
`none`; any other API error propagates. -/
def getJob (resp : Except Nat V1JobStatus) : Except Nat (Option V1JobStatus) :=
  match resp with
  | Except.ok j => Except.ok (Option.some j)
  | Except.error code =>
    if code = 404 then Except.ok Option.none else Except.error code

/-- `K8sJobManager.status` (lines 242-253) over the raw orchestrator
response. -/
def statusApi (resp : Except Nat V1JobStatus) : Except Nat Status :=
  (getJob resp).map statusOfJob

/-- The counter derivation restated with arithmetic conditions. -/
theorem statusOfJob_eq (s : V1JobStatus) :
    statusOfJob (Option.some s)
      = if 0 < s.succeeded.getD 0 then Status.success
        else if 0 < s.active.getD 0 then Status.training
        else if 0 < s.failed.getD 0 then Status.failed
        else Status.none := by
  simp [statusOfJob, counterTruthy, Nat.pos_iff_ne_zero]

/-- C1: `status` returns `none` when the orchestrator reports the Job object
absent (404), and otherwise derives the status from the raw counters in
priority order: succeeded > 0 → `success` (regardless of the active count),
else active > 0 → `training`, else failed > 0 → `failed`, else `none`. -/
theorem status_priority (resp : Except Nat V1JobStatus) :
    (resp = Except.error 404 → statusApi resp = Except.ok Status.none)
    ∧ (∀ s, resp = Except.ok s →
      ((0 < s.succeeded.getD 0 → statusApi resp = Except.ok Status.success)
      ∧ (s.succeeded.getD 0 = 0 → 0 < s.active.getD 0 →
          statusApi resp = Except.ok Status.training)
      ∧ (s.succeeded.getD 0 = 0 → s.active.getD 0 = 0 → 0 < s.failed.getD 0 →
          statusApi resp = Except.ok Status.failed)
      ∧ (s.succeeded.getD 0 = 0 → s.active.getD 0 = 0 → s.failed.getD 0 = 0 →
          statusApi resp = Except.ok Status.none))) := by
  constructor
  · rintro rfl
    rfl
  · rintro s rfl
    have hs : statusApi (Except.ok s)
        = Except.ok (statusOfJob (Option.some s)) := rfl
    rw [hs, statusOfJob_eq]
    refine ⟨fun h => ?_, fun h1 h2 => ?_, fun h1 h2 h3 => ?_,
      fun h1 h2 h3 => ?_⟩ <;> split_ifs <;> first | rfl | omega

/-- Witness for C1: a Job reporting both succeeded = 2 and active = 1 has
status `success`. -/
theorem status_priority_witness :
    statusApi (Except.ok ⟨Option.some 1, Option.some 2, Option.none⟩)
      = Except.ok Status.success :=
  ((status_priority (Except.ok ⟨Option.some 1, Option.some 2, Option.none⟩)).2
    _ rfl).1 (by decide)

/-- An env entry of the Job manifest: `{'name': ..., 'value': ...}`.  The
value is `Option String` because the Python code can store `None` there. -/
structure EnvEntry where
  name : String
  value : Option String
deriving DecidableEq, Repr

/-- Python truthiness of an optional string (`None` and `''` are falsy). -/
def strTruthy (o : Option String) : Bool := o.getD "" ≠ ""

/-- Process-global configuration read from environment variables at import
time in `job_manager.py` (lines 17-44).  An option is `none` when the
variable is unset. -/
structure ManagerConfig where
  localVolumePath : Option String
  s3BucketName : Option String
  s3Endpoint : Option String
  s3Region : Option String
  s3Dir : String
  s3CacheDir : String
  isRasaForBotfront : Option String
deriving DecidableEq, Repr

/-- `K8sJobManager.s3_model_dir` (lines 120-122). -/
def s3_model_dir (s3Dir projectId dataHash : String) : String :=
  s3Dir ++ "/" ++ projectId ++ "/" ++ dataHash

/-- The `job_envs` list built by `K8sJobManager.train` (lines 157-177):
four base entries, then RASA_EXTRA_ARGS if truthy, S3_CACHE_PATH if
`use_cache`, LOCAL_VOLUME_PATH if configured, and IS_RASA_FOR_BOTFRONT if
either the request flag or the global is truthy — the appended value being
the global `IS_RASA_FOR_BOTFRONT`. -/
def buildJobEnvs (cfg : ManagerConfig) (projectId tdHash : String)
    (rasaExtraArgs : Option String) (useCache : Bool)
    (isRasaForBotfront : Bool) : List EnvEntry :=
  let base : List EnvEntry :=
    [ ⟨"S3_MODEL_DIR", Option.some (s3_model_dir cfg.s3Dir projectId tdHash)⟩
    , ⟨"S3_BUCKET_NAME", cfg.s3BucketName⟩
    , ⟨"S3_ENDPOINT", cfg.s3Endpoint⟩
    , ⟨"S3_REGION", cfg.s3Region⟩ ]
  let l1 :=
    if strTruthy rasaExtraArgs
    then base ++ [⟨"RASA_EXTRA_ARGS", rasaExtraArgs⟩] else base
  let l2 :=
    if useCache
    then l1 ++ [⟨"S3_CACHE_PATH",
      Option.some (cfg.s3CacheDir ++ "/" ++ projectId ++ "/cache.tar.gz")⟩]
    else l1
  let l3 :=
    if strTruthy cfg.localVolumePath
    then l2 ++ [⟨"LOCAL_VOLUME_PATH", cfg.localVolumePath⟩] else l2
  if isRasaForBotfront || strTruthy cfg.isRasaForBotfront
  then l3 ++ [⟨"IS_RASA_FOR_BOTFRONT", cfg.isRasaForBotfront⟩]
  else l3

/-- C10: every IS_RASA_FOR_BOTFRONT entry in the Job environment carries the
process-global configuration value, never the per-request flag; in
particular, when the request flag is true while the global is unset, the
environment contains an IS_RASA_FOR_BOTFRONT entry whose value is `None`. -/
theorem is_rasa_env_uses_global (cfg : ManagerConfig) (pid h : String)
    (extra : Option String) (useCache reqFlag : Bool) :
    (∀ e ∈ buildJobEnvs cfg pid h extra useCache reqFlag,
        e.name = "IS_RASA_FOR_BOTFRONT" → e.value = cfg.isRasaForBotfront)
    ∧ (reqFlag = true → cfg.isRasaForBotfront = Option.none →
        (⟨"IS_RASA_FOR_BOTFRONT", Option.none⟩ : EnvEntry)
          ∈ buildJobEnvs cfg pid h extra useCache reqFlag) := by
  constructor
  · intro e he hname
    unfold buildJobEnvs at he
    dsimp only at he
    split_ifs at he <;> fin_cases he <;>
      first | rfl | exact absurd hname (by simp)
  · intro hflag hglob
    subst hflag
    unfold buildJobEnvs
    simp [hglob]

/-- Witness for C10: with the global unset and the request flag true, the
entry `IS_RASA_FOR_BOTFRONT = None` appears in the environment. -/
theorem is_rasa_env_uses_global_witness :
    (⟨"IS_RASA_FOR_BOTFRONT", Option.none⟩ : EnvEntry) ∈ buildJobEnvs
      ⟨Option.none, Option.none, Option.none, Option.none,
        "models", "models-cache", Option.none⟩
      "p1" "h1" Option.none true true :=
  (is_rasa_env_uses_global
      ⟨Option.none, Option.none, Option.none, Option.none,
        "models", "models-cache", Option.none⟩
      "p1" "h1" Option.none true true).2 rfl rfl

/-- The successive sleep durations of `upload_to_s3` (train.py lines
140-157): the first sleep is the base pause of 10, and after each sleep the
pause doubles while strictly below the cap of 2560, else stays. -/
def pauseSeq : Nat → Nat
  | 0 => 10
  | n + 1 => if pauseSeq n < 2560 then pauseSeq n * 2 else pauseSeq n

theorem pauseSeq_succ (n : Nat) :
    pauseSeq (n + 1)
      = if pauseSeq n < 2560 then pauseSeq n * 2 else pauseSeq n := rfl

/-- The `while True` loop of `upload_to_s3` (train.py lines 147-157),
driven by an oracle `ok` giving the outcome of each `s3.upload_file`
attempt (attempt counting starts at `k`).  `fuel` bounds how many attempts
we unroll; the result is the index of the successful attempt together with
the sleeps performed before it, or `none` when the first `fuel` attempts
all fail. -/
def uploadLoop (ok : Nat → Bool) (maxPause : Nat) :
    Nat → Nat → Nat → Option (Nat × List Nat)
  | 0, _, _ => Option.none
  | fuel + 1, k, pause =>
    if ok k then Option.some (k, [])
    else
      match uploadLoop ok maxPause fuel (k + 1)
          (if pause < maxPause then pause * 2 else pause) with
      | Option.none => Option.none
      | Option.some (i, sleeps) => Option.some (i, pause :: sleeps)

/-- `upload_to_s3` with its default arguments `pause=10, max_pause=2560`
(train.py lines 140-146), as called by `S3Storage.upload_file`. -/
def upload_to_s3 (ok : Nat → Bool) (fuel : Nat) : Option (Nat × List Nat) :=
  uploadLoop ok 2560 fuel 0 10

/-- The sleeps the loop performs across `j` failures when the current pause
is `p`. -/
def pausesFrom (mp p : Nat) : Nat → List Nat
  | 0 => []
  | j + 1 => p :: pausesFrom mp (if p < mp then p * 2 else p) j

theorem uploadLoop_succeeds (ok : Nat → Bool) (mp : Nat) :
    ∀ j fuel k p, (∀ i, i < j → ok (k + i) = false) → ok (k + j) = true →
      j < fuel →
      uploadLoop ok mp fuel k p = Option.some (k + j, pausesFrom mp p j) := by
  intro j
  induction j with
  | zero =>
    intro fuel k p _ hk hf
    match fuel, hf with
    | fuel + 1, _ =>
      simp only [Nat.add_zero] at hk
      simp [uploadLoop, hk, pausesFrom]
  | succ j ih =>
    intro fuel k p hfail hk hf
    match fuel, hf with
    | fuel + 1, hf =>
      have h0 : ok k = false := by simpa using hfail 0 (Nat.succ_pos j)
      have hfail' : ∀ i, i < j → ok (k + 1 + i) = false := by
        intro i hi
        have := hfail (i + 1) (by omega)
        simpa [Nat.add_assoc, Nat.add_comm 1 i] using this
      have hk' : ok (k + 1 + j) = true := by
        have : k + 1 + j = k + (j + 1) := by omega
        rw [this]; exact hk
      have := ih fuel (k + 1) (if p < mp then p * 2 else p) hfail' hk'
        (by omega)
      simp only [uploadLoop, h0, Bool.false_eq_true, if_false, this]
      have hidx : k + 1 + j = k + (j + 1) := by omega
      simp [pausesFrom, hidx]

theorem uploadLoop_exhausts (ok : Nat → Bool) (mp : Nat) :
    ∀ fuel k p, (∀ i, i < fuel → ok (k + i) = false) →
      uploadLoop ok mp fuel k p = Option.none := by
  intro fuel
  induction fuel with
  | zero => intro k p _; rfl
  | succ fuel ih =>
    intro k p hfail
    have h0 : ok k = false := by simpa using hfail 0 (Nat.succ_pos fuel)
    have hfail' : ∀ i, i < fuel → ok (k + 1 + i) = false := by
      intro i hi
      have := hfail (i + 1) (by omega)
      simpa [Nat.add_assoc, Nat.add_comm 1 i] using this
    simp [uploadLoop, h0, ih (k + 1) _ hfail']

theorem pauseSeq_min (n : Nat) : pauseSeq n = min (10 * 2 ^ n) 2560 := by
  induction n with
  | zero => rfl
  | succ n ih =>
    rw [pauseSeq_succ, ih]
    have h256 : (2 : Nat) ^ 8 = 256 := by norm_num
    rcases lt_or_ge (10 * 2 ^ n) 2560 with h | h
    · have h8 : n < 8 := by
        by_contra hn
        push_neg at hn
        have := Nat.pow_le_pow_right (show 1 ≤ 2 by norm_num) hn
        omega
      have h2 : 10 * 2 ^ (n + 1) ≤ 2560 := by
        have := Nat.pow_le_pow_right (show 1 ≤ 2 by norm_num)
          (show n + 1 ≤ 8 by omega)
        omega
      rw [min_eq_left (le_of_lt h), if_pos h, min_eq_left h2]
      ring
    · have hmono : 10 * 2 ^ n ≤ 10 * 2 ^ (n + 1) := by
        have := Nat.pow_le_pow_right (show 1 ≤ 2 by norm_num) (Nat.le_succ n)
        omega
      rw [min_eq_right h, if_neg (lt_irrefl 2560), min_eq_right (by omega)]

theorem pausesFrom_pauseSeq :
    ∀ j m, pausesFrom 2560 (pauseSeq m) j
      = (List.range j).map (fun i => pauseSeq (m + i)) := by
  intro j
  induction j with
  | zero => intro m; rfl
  | succ j ih =>
    intro m
    have hstep : (if pauseSeq m < 2560 then pauseSeq m * 2 else pauseSeq m)
        = pauseSeq (m + 1) := rfl
    have hfun : ((fun i => pauseSeq (m + i)) ∘ Nat.succ)
        = fun i => pauseSeq (m + 1 + i) := by
      funext i
      show pauseSeq (m + Nat.succ i) = pauseSeq (m + 1 + i)
      congr 1
      omega
    calc pausesFrom 2560 (pauseSeq m) (j + 1)
        = pauseSeq m :: pausesFrom 2560 (pauseSeq (m + 1)) j := by
          rw [show pausesFrom 2560 (pauseSeq m) (j + 1) = pauseSeq m ::
            pausesFrom 2560
              (if pauseSeq m < 2560 then pauseSeq m * 2 else pauseSeq m) j
            from rfl, hstep]
      _ = pauseSeq m :: (List.range j).map (fun i => pauseSeq (m + 1 + i)) := by
          rw [ih (m + 1)]
      _ = (List.range (j + 1)).map (fun i => pauseSeq (m + i)) := by
          rw [List.range_succ_eq_map, List.map_cons, List.map_map, hfun]
          simp

/-- C3: in `upload_to_s3` the sleep before retry `n+1` is the base pause 10
doubled per failure while below the cap 2560 and held at the cap after, the
loop reaches attempt `k+1` exactly when the first `k` attempts failed, it
returns at the first successful attempt having slept
`pauseSeq 0, …, pauseSeq (k-1)`, and when no attempt succeeds it never
terminates (runs out of any amount of fuel). -/
theorem upload_retry (ok : Nat → Bool) (k fuel : Nat) :
    (∀ n, pauseSeq n = min (10 * 2 ^ n) 2560)
    ∧ ((∀ i, i < k → ok i = false) → ok k = true → k < fuel →
        upload_to_s3 ok fuel = Option.some (k, (List.range k).map pauseSeq))
    ∧ ((∀ i, i < fuel → ok i = false) →
        upload_to_s3 ok fuel = Option.none) := by
  refine ⟨pauseSeq_min, fun hfail hk hf => ?_, fun hfail => ?_⟩
  · have := uploadLoop_succeeds ok 2560 k fuel 0 10
      (by simpa using hfail) (by simpa using hk) hf
    have h10 : (10 : Nat) = pauseSeq 0 := rfl
    rw [upload_to_s3, this, h10, pausesFrom_pauseSeq k 0]
    simp
  · exact uploadLoop_exhausts ok 2560 fuel 0 10 (by simpa using hfail)

/-- Witness for C3: with attempts 0 and 1 failing and attempt 2 succeeding,
the loop returns attempt 2 after sleeping 10 then 20; with all of the first
5 attempts failing, 5 units of fuel are exhausted. -/
theorem upload_retry_witness :
    upload_to_s3 (fun n => 2 ≤ n) 5 = Option.some (2, [10, 20])
    ∧ upload_to_s3 (fun _ => false) 5 = Option.none := by
  constructor
  · have := (upload_retry (fun n => 2 ≤ n) 2 5).2.1 (by decide) (by decide)
      (by decide)
    simpa [List.range_succ] using this
  · exact (upload_retry (fun _ => false) 2 5).2.2 (fun i _ => rfl)

/-- `check_already_exists_error` (job_manager.py lines 77-82): true iff
every API exception bundled in the `FailToCreateError` has reason
'AlreadyExists'. -/
def check_already_exists_error (reasons : List String) : Bool :=
  reasons.all (fun r => r = "AlreadyExists")

/-- `K8sJobManager.kube_apply` (job_manager.py lines 100-114) over the
orchestrator's response to `create_from_dict`: when `allow_exists` is set
and the creation failure consists only of 'AlreadyExists' exceptions it is
swallowed (logged, `None` returned); any other failure re-raises. -/
def kube_apply {α : Type} (resp : Except (List String) α)
    (allowExists : Bool) : Except (List String) (Option α) :=
  match resp with
  | Except.ok r => Except.ok (Option.some r)
  | Except.error e =>
    if allowExists && check_already_exists_error e
    then Except.ok Option.none
    else Except.error e

/-- The object-creation tail of `K8sJobManager.train` (job_manager.py lines
208-230): the Job and then the ConfigMap are each submitted through a
direct `kubernetes.utils.create_from_dict` call — not through
`kube_apply` — so any `FailToCreateError` propagates to the caller.  The
oracle arguments give the orchestrator's responses to the two creation
calls (the ConfigMap body depends on the created Job's uid, used as owner
reference); on success the fresh job id is returned with `created = true`. -/
def train_create (jobId : String)
    (jobResp : Except (List String) String)
    (cmResp : String → Except (List String) Unit) :
    Except (List String) (String × Bool) :=
  match jobResp with
  | Except.error e => Except.error e
  | Except.ok jobUid =>
    match cmResp jobUid with
    | Except.error e => Except.error e
    | Except.ok _ => Except.ok (jobId, true)

/-- C2 counterexample: an 'AlreadyExists' creation failure is a conflict in
the sense of `check_already_exists_error`, yet `train` surfaces it to the
caller instead of swallowing it. -/
theorem train_conflict_surfaced :
    check_already_exists_error ["AlreadyExists"] = true
    ∧ train_create "job-1" (Except.error ["AlreadyExists"])
        (fun _ => Except.ok ())
        = Except.error ["AlreadyExists"] := by
  exact ⟨rfl, rfl⟩

/-- C2 amended: during `train` every creation failure — 'AlreadyExists'
conflicts included — is fatal and aborts the submission with that error,
whether it arises on the Job or on the Config creation; only the
`kube_apply` helper (which `train` does not call) swallows an
all-AlreadyExists creation failure when `allow_exists` is set. -/
theorem train_create_fatal (jobId : String) (e : List String)
    (jobResp : Except (List String) String)
    (cmResp : String → Except (List String) Unit) :
    (train_create jobId (Except.error e) cmResp = Except.error e)
    ∧ (∀ uid, jobResp = Except.ok uid → cmResp uid = Except.error e →
        train_create jobId jobResp cmResp = Except.error e)
    ∧ (check_already_exists_error e = true →
        kube_apply (Except.error e : Except (List String) Unit) true
          = Except.ok Option.none) := by
  refine ⟨rfl, ?_, ?_⟩
  · rintro uid rfl hcm
    simp [train_create, hcm]
  · intro hex
    simp [kube_apply, hex]

/-- Witness for C2 (amended): a ConfigMap creation failure with reason
'AlreadyExists' aborts the submission, and `kube_apply` swallows the same
failure. -/
theorem train_create_fatal_witness :
    (train_create "job-1" (Except.ok "uid-1")
        (fun _ => Except.error ["AlreadyExists"])
        = Except.error ["AlreadyExists"])
    ∧ (kube_apply (Except.error ["AlreadyExists"] : Except (List String) Unit)
        true = Except.ok Option.none) :=
  ⟨(train_create_fatal "job-1" ["AlreadyExists"] (Except.ok "uid-1")
      (fun _ => Except.error ["AlreadyExists"])).2.1 "uid-1" rfl rfl,
    (train_create_fatal "job-1" ["AlreadyExists"] (Except.ok "uid-1")
      (fun _ => Except.error ["AlreadyExists"])).2.2 rfl⟩

/-- `LocalStorage.upload_file` (train.py lines 53-57): `os.makedirs` then a
single `shutil.copy`; any exception the copy raises propagates to the
caller — there is no retry loop around it.  Over the same per-attempt
oracle as the S3 loop, the local variant consults only attempt 0. -/
def localUploadFile (ok : Nat → Bool) : Except Unit Unit :=
  if ok 0 then Except.ok () else Except.error ()

/-- `S3Storage.upload_file` (train.py lines 69-70): delegates to
`upload_to_s3`, hence retries until some attempt succeeds. -/
def s3UploadFile (ok : Nat → Bool) (fuel : Nat) : Option (Nat × List Nat) :=
  upload_to_s3 ok fuel

/-- C4 counterexample: with the first upload attempt failing and every
later one succeeding, the object-storage variant retries and succeeds
(after one 10-unit sleep) while the local-volume variant propagates the
failure without any retry — the two variants are not behaviorally
interchangeable under upload failure, and the retry protocol does not
apply to the local variant. -/
theorem local_upload_not_retried :
    localUploadFile (fun n => decide (1 ≤ n)) = Except.error ()
    ∧ s3UploadFile (fun n => decide (1 ≤ n)) 2 = Option.some (1, [10]) := by
  constructor
  · rfl
  · rfl

/-- C4 amended: the resilient retry protocol applies only to the
object-storage variant: `S3Storage.upload_file` goes through
`upload_to_s3` and performs attempt after attempt until one succeeds,
while `LocalStorage.upload_file` performs exactly one copy, succeeding or
propagating that single attempt's failure. -/
theorem upload_retry_only_s3 (ok : Nat → Bool) (k fuel : Nat) :
    (ok 0 = false → localUploadFile ok = Except.error ())
    ∧ (ok 0 = true → localUploadFile ok = Except.ok ())
    ∧ ((∀ i, i < k → ok i = false) → ok k = true → k < fuel →
        s3UploadFile ok fuel
          = Option.some (k, (List.range k).map pauseSeq)) := by
  refine ⟨fun h0 => ?_, fun h0 => ?_, fun hfail hk hf => ?_⟩
  · simp [localUploadFile, h0]
  · simp [localUploadFile, h0]
  · have := uploadLoop_succeeds ok 2560 k fuel 0 10
      (by simpa using hfail) (by simpa using hk) hf
    have h10 : (10 : Nat) = pauseSeq 0 := rfl
    rw [s3UploadFile, upload_to_s3, this, h10, pausesFrom_pauseSeq k 0]
    simp

/-- Witness for C4 (amended): first attempt failing, second succeeding. -/
theorem upload_retry_only_s3_witness :
    localUploadFile (fun n => decide (2 ≤ n)) = Except.error ()
    ∧ s3UploadFile (fun n => decide (2 ≤ n)) 3
        = Option.some (2, (List.range 2).map pauseSeq) :=
  ⟨(upload_retry_only_s3 (fun n => decide (2 ≤ n)) 2 3).1 rfl,
    (upload_retry_only_s3 (fun n => decide (2 ≤ n)) 2 3).2.2
      (by decide) (by decide) (by decide)⟩

/-- The best-effort cache download step of the worker (train.py lines
95-104): when a cache path is configured, download the archive and unpack
it inside a `try`/`except Exception` that logs and ignores any failure. -/
def cacheDownloadStep (cachePath : Option String)
    (download unpack : Except String Unit) : Except String Unit :=
  if strTruthy cachePath then
    match download with
    | Except.error _ => Except.ok ()
    | Except.ok _ =>
      match unpack with
      | Except.error _ => Except.ok ()
      | Except.ok _ => Except.ok ()
  else Except.ok ()

/-- The post-training cache step of the worker (train.py lines 128-130):
when a cache path is configured and the local cache directory exists, run
`shutil.make_archive` and then `storage.upload_file`, with no surrounding
`try`/`except` — an exception from either propagates out of `main`. -/
def cacheUploadStep (cachePath : Option String) (cacheDirExists : Bool)
    (archive upload : Except String Unit) : Except String Unit :=
  if strTruthy cachePath && cacheDirExists then
    match archive with
    | Except.error e => Except.error e
    | Except.ok _ => upload
  else Except.ok ()

/-- The tail of the worker's `main` (train.py lines 127-130): upload the
model artifact, then run the cache step; an uncaught exception anywhere
propagates out of `main` and fails the worker process. -/
def workerTail (modelUpload : Except String Unit) (cachePath : Option String)
    (cacheDirExists : Bool) (archive upload : Except String Unit) :
    Except String Unit :=
  match modelUpload with
  | Except.error e => Except.error e
  | Except.ok _ => cacheUploadStep cachePath cacheDirExists archive upload

/-- C5 counterexample: with a cache path configured, the cache directory
present, and `shutil.make_archive` raising, the whole worker run fails —
the post-training cache step is not best-effort. -/
theorem cache_archive_failure_fails_run :
    workerTail (Except.ok ())
      (Option.some "models-cache/p1/cache.tar.gz") true
      (Except.error "make_archive") (Except.ok ())
      = Except.error "make_archive" := rfl

/-- C5 amended: the cache download/unpack step is best-effort (every
failure is swallowed), but the post-training cache step is not: an
archiving failure propagates out of `main` and fails the run, and the
upload outcome is likewise passed through unprotected (so a raising upload
— the local-volume variant's on copy failure — also fails the run). -/
theorem cache_steps (cp : Option String) (dl up ar u : Except String Unit)
    (dirExists : Bool) (e : String) :
    (cacheDownloadStep cp dl up = Except.ok ())
    ∧ (strTruthy cp = true → dirExists = true → ar = Except.error e →
        workerTail (Except.ok ()) cp dirExists ar u = Except.error e)
    ∧ (strTruthy cp = true → dirExists = true → ar = Except.ok () →
        workerTail (Except.ok ()) cp dirExists ar u = u) := by
  refine ⟨?_, fun hcp hd har => ?_, fun hcp hd har => ?_⟩
  · unfold cacheDownloadStep
    split_ifs with h
    · match dl with
      | Except.error _ => rfl
      | Except.ok _ =>
        match up with
        | Except.error _ => rfl
        | Except.ok _ => rfl
    · rfl
  · subst har hd
    simp [workerTail, cacheUploadStep, hcp]
  · subst har hd
    simp [workerTail, cacheUploadStep, hcp]

/-- Witness for C5 (amended): a failed cache download is swallowed, a
failed archive step fails the run, and an upload failure passes through. -/
theorem cache_steps_witness :
    (cacheDownloadStep (Option.some "c/p1/cache.tar.gz")
        (Except.error "404") (Except.ok ()) = Except.ok ())
    ∧ (workerTail (Except.ok ()) (Option.some "c/p1/cache.tar.gz") true
        (Except.error "boom") (Except.ok ()) = Except.error "boom")
    ∧ (workerTail (Except.ok ()) (Option.some "c/p1/cache.tar.gz") true
        (Except.ok ()) (Except.error "copy") = Except.error "copy") :=
  ⟨(cache_steps (Option.some "c/p1/cache.tar.gz") (Except.error "404")
      (Except.ok ()) (Except.error "boom") (Except.ok ()) true "boom").1,
    (cache_steps (Option.some "c/p1/cache.tar.gz") (Except.error "404")
      (Except.ok ()) (Except.error "boom") (Except.ok ()) true "boom").2.1
      rfl rfl rfl,
    (cache_steps (Option.some "c/p1/cache.tar.gz") (Except.error "404")
      (Except.ok ()) (Except.ok ()) (Except.error "copy") true "boom").2.2
      rfl rfl rfl⟩

/-- A key of a Python dict as reachable by `dict_set`: a path segment
produces a string key, or an integer key when `int(segment)` succeeds. -/
inductive PyKey where
  | str : String → PyKey
  | int : Int → PyKey
deriving DecidableEq, Repr

/-- A Python value as manipulated by `dict_set` (job_manager.py lines
50-64) on YAML-loaded documents: dicts (association lists, first entry
wins), lists, and the scalar shapes `safe_load` produces.  The model is a
tree: YAML aliasing/sharing is not represented. -/
inductive PyVal where
  | dict : List (PyKey × PyVal) → PyVal
  | list : List PyVal → PyVal
  | str : String → PyVal
  | int : Int → PyVal
  | bool : Bool → PyVal
  | none : PyVal

def digitsToNat (cs : List Char) : Nat :=
  cs.foldl (fun acc c => acc * 10 + (c.toNat - Char.toNat '0')) 0

/-- Python `int(segment)` as `dict_set` uses it to classify a path
segment: an optional sign followed by digits parses; anything else raises
`ValueError` (modelled as `none`).  We model the sign-and-digits core;
surrounding whitespace and digit-group underscores are not modelled. -/
def pyInt (s : String) : Option Int :=
  match s.toList with
  | [] => Option.none
  | '+' :: rest =>
    if !rest.isEmpty && rest.all Char.isDigit
    then Option.some (digitsToNat rest) else Option.none
  | '-' :: rest =>
    if !rest.isEmpty && rest.all Char.isDigit
    then Option.some (-(digitsToNat rest : Int)) else Option.none
  | cs =>
    if cs.all Char.isDigit then Option.some (digitsToNat cs) else Option.none

/-- Python dict lookup. -/
def pyDictGet (d : List (PyKey × PyVal)) (k : PyKey) : Option PyVal :=
  match d with
  | [] => Option.none
  | (k', v) :: rest => if k' = k then Option.some v else pyDictGet rest k

/-- Python dict assignment: overwrite the existing entry in place, or
append a new one. -/
def pyDictSet (d : List (PyKey × PyVal)) (k : PyKey) (v : PyVal) :
    List (PyKey × PyVal) :=
  match d with
  | [] => [(k, v)]
  | (k', v') :: rest =>
    if k' = k then (k, v) :: rest else (k', v') :: pyDictSet rest k v

/-- Normalization of a Python sequence index: a negative index counts from
the end; `none` when the index is out of range. -/
def normalizeIdx (i : Int) (len : Nat) : Option Nat :=
  let j : Int := if i < 0 then i + len else i
  if 0 ≤ j ∧ j < (len : Int) then Option.some j.toNat else Option.none

/-- Python list read `l[i]`. -/
def pyListGet (l : List PyVal) (i : Int) : Option PyVal :=
  match normalizeIdx i l.length with
  | Option.some j => l.get? j
  | Option.none => Option.none

/-- Python list write `l[i] = v`: only existing indices may be written;
an out-of-range index raises `IndexError` (modelled as `none`). -/
def pyListSet (l : List PyVal) (i : Int) (v : PyVal) :
    Option (List PyVal) :=
  match normalizeIdx i l.length with
  | Option.some j => Option.some (l.set j v)
  | Option.none => Option.none

/-- Python string read `s[i]`: yields a one-character string. -/
def pyStrGet (s : String) (i : Int) : Option PyVal :=
  match normalizeIdx i s.length with
  | Option.some j =>
    match s.toList.get? j with
    | Option.some c => Option.some (PyVal.str (String.mk [c]))
    | Option.none => Option.none
  | Option.none => Option.none

/-- The `PathError` family the specification names for `dict_set`
failures (Python `KeyError`, `IndexError`, `TypeError`). -/
inductive PathError where
  | keyMissing : PyKey → PathError
  | indexOutOfRange : Int → PathError
  | notIndexable : PathError
deriving DecidableEq, Repr

/-- One descent step of `dict_set` (job_manager.py lines 53-58):
`int(k)` decides whether the segment indexes as an integer; `current[k]`
then reads a dict key, a list index, or a string index (Python strings are
readable sequences); anything else raises. -/
def pyGetSegment (cur : PyVal) (seg : String) : Except PathError PyVal :=
  match pyInt seg with
  | Option.some i =>
    match cur with
    | PyVal.dict d =>
      match pyDictGet d (PyKey.int i) with
      | Option.some v => Except.ok v
      | Option.none => Except.error (PathError.keyMissing (PyKey.int i))
    | PyVal.list l =>
      match pyListGet l i with
      | Option.some v => Except.ok v
      | Option.none => Except.error (PathError.indexOutOfRange i)
    | PyVal.str s =>
      match pyStrGet s i with
      | Option.some v => Except.ok v
      | Option.none => Except.error (PathError.indexOutOfRange i)
    | _ => Except.error PathError.notIndexable
  | Option.none =>
    match cur with
    | PyVal.dict d =>
      match pyDictGet d (PyKey.str seg) with
      | Option.some v => Except.ok v
      | Option.none => Except.error (PathError.keyMissing (PyKey.str seg))
    | _ => Except.error PathError.notIndexable

/-- The final assignment step of `dict_set` (job_manager.py lines 59-64):
`current[k] = value` on a dict overwrites or creates the key; on a list it
writes an existing index or raises; on anything else (strings are
immutable) it raises. -/
def pySetSegment (cur : PyVal) (seg : String) (v : PyVal) :
    Except PathError PyVal :=
  match pyInt seg with
  | Option.some i =>
    match cur with
    | PyVal.dict d => Except.ok (PyVal.dict (pyDictSet d (PyKey.int i) v))
    | PyVal.list l =>
      match pyListSet l i v with
      | Option.some l' => Except.ok (PyVal.list l')
      | Option.none => Except.error (PathError.indexOutOfRange i)
    | _ => Except.error PathError.notIndexable
  | Option.none =>
    match cur with
    | PyVal.dict d => Except.ok (PyVal.dict (pyDictSet d (PyKey.str seg) v))
    | _ => Except.error PathError.notIndexable

/-- The descent-and-assign loop of `dict_set` over the split path: Python
mutates the resolved child in place, which functionally is a write-back of
the updated child along the very segment it was read from. -/
def dictSetGo : PyVal → List String → PyVal → Except PathError PyVal
  | cur, [], _ => Except.ok cur
  | cur, [k], v => pySetSegment cur k v
  | cur, k :: k' :: rest, v =>
    match pyGetSegment cur k with
    | Except.error e => Except.error e
    | Except.ok child =>
      match dictSetGo child (k' :: rest) v with
      | Except.error e => Except.error e
      | Except.ok child' => pySetSegment cur k child'

/-- Helper for `pySplitDot`: accumulate the current segment (reversed)
while scanning the characters. -/
def splitAux : List Char → List Char → List String
  | [], acc => [String.mk acc.reverse]
  | c :: rest, acc =>
    if c = '.' then String.mk acc.reverse :: splitAux rest []
    else splitAux rest (c :: acc)

/-- Python `path.split('.')` as used by `dict_set` (job_manager.py line
51): splits at every dot, keeping empty segments, and never returns an
empty list (the empty string yields one empty segment). -/
def pySplitDot (s : String) : List String :=
  splitAux s.data []

/-- `dict_set` (job_manager.py lines 50-64): split the dotted path and run
the descent-and-assign loop.  (`str.split` never returns an empty list, so
the `[]` case of the loop is unreachable.) -/
def dict_set (d : PyVal) (path : String) (v : PyVal) :
    Except PathError PyVal :=
  dictSetGo d (pySplitDot path) v

/-- The pure resolution of a segment prefix, iterating the descent step. -/
def resolvePath (cur : PyVal) : List String → Except PathError PyVal
  | [] => Except.ok cur
  | s :: rest =>
    match pyGetSegment cur s with
    | Except.error e => Except.error e
    | Except.ok child => resolvePath child rest

/-- A value that is neither a mapping nor a sequence in the data model of
the specification. -/
def isScalar : PyVal → Bool
  | PyVal.dict _ => false
  | PyVal.list _ => false
  | _ => true

theorem pyDictGet_set_self (d : List (PyKey × PyVal)) (k : PyKey)
    (v : PyVal) : pyDictGet (pyDictSet d k v) k = Option.some v := by
  induction d with
  | nil => simp [pyDictSet, pyDictGet]
  | cons p rest ih =>
    obtain ⟨k0, v0⟩ := p
    by_cases h0 : k0 = k
    · subst h0
      simp [pyDictSet, pyDictGet]
    · simp [pyDictSet, pyDictGet, h0, ih]

theorem pyDictGet_set_other (d : List (PyKey × PyVal)) (k k' : PyKey)
    (v : PyVal) (h : k' ≠ k) :
    pyDictGet (pyDictSet d k v) k' = pyDictGet d k' := by
  induction d with
  | nil => simp [pyDictSet, pyDictGet, Ne.symm h]
  | cons p rest ih =>
    obtain ⟨k0, v0⟩ := p
    by_cases h0 : k0 = k
    · subst h0
      simp [pyDictSet, pyDictGet, Ne.symm h]
    · by_cases h1 : k0 = k'
      · subst h1
        simp [pyDictSet, pyDictGet, h0]
      · simp [pyDictSet, pyDictGet, h0, h1, ih]

theorem pyStrGet_isScalar {s : String} {i : Int} {w : PyVal}
    (h : pyStrGet s i = Option.some w) : isScalar w = true := by
  rcases hn : normalizeIdx i s.length with _ | j <;>
    simp [pyStrGet, hn] at h
  rcases hc : s.data[j]? with _ | c <;> rw [hc] at h <;> simp at h
  subst h
  rfl

theorem dictSetGo_scalar_fail :
    ∀ (segs : List String) (cur v : PyVal), segs ≠ [] →
      isScalar cur = true →
      ∃ e, dictSetGo cur segs v = Except.error e := by
  intro segs
  induction segs with
  | nil => intro cur v h _; exact absurd rfl h
  | cons k rest ih =>
    intro cur v _ hs
    rcases rest with _ | ⟨k', rest'⟩
    · cases cur with
      | dict d => simp [isScalar] at hs
      | list l => simp [isScalar] at hs
      | str s =>
        rcases hpi : pyInt k with _ | i <;>
          exact ⟨PathError.notIndexable, by
            simp [dictSetGo, pySetSegment, hpi]⟩
      | int n =>
        rcases hpi : pyInt k with _ | i <;>
          exact ⟨PathError.notIndexable, by
            simp [dictSetGo, pySetSegment, hpi]⟩
      | bool b =>
        rcases hpi : pyInt k with _ | i <;>
          exact ⟨PathError.notIndexable, by
            simp [dictSetGo, pySetSegment, hpi]⟩
      | none =>
        rcases hpi : pyInt k with _ | i <;>
          exact ⟨PathError.notIndexable, by
            simp [dictSetGo, pySetSegment, hpi]⟩
    · cases cur with
      | dict d => simp [isScalar] at hs
      | list l => simp [isScalar] at hs
      | str s =>
        rcases hpi : pyInt k with _ | i
        · exact ⟨PathError.notIndexable, by
            simp [dictSetGo, pyGetSegment, hpi]⟩
        · rcases hsg : pyStrGet s i with _ | w
          · exact ⟨PathError.indexOutOfRange i, by
              simp [dictSetGo, pyGetSegment, hpi, hsg]⟩
          · obtain ⟨e, he⟩ := ih w v (by simp) (pyStrGet_isScalar hsg)
            exact ⟨e, by simp [dictSetGo, pyGetSegment, hpi, hsg, he]⟩
      | int n =>
        rcases hpi : pyInt k with _ | i <;>
          exact ⟨PathError.notIndexable, by
            simp [dictSetGo, pyGetSegment, hpi]⟩
      | bool b =>
        rcases hpi : pyInt k with _ | i <;>
          exact ⟨PathError.notIndexable, by
            simp [dictSetGo, pyGetSegment, hpi]⟩
      | none =>
        rcases hpi : pyInt k with _ | i <;>
          exact ⟨PathError.notIndexable, by
            simp [dictSetGo, pyGetSegment, hpi]⟩

theorem dictSetGo_append_error (e : PathError) :
    ∀ (pre : List String) (d w : PyVal) (segs : List String) (v : PyVal),
      segs ≠ [] → resolvePath d pre = Except.ok w →
      dictSetGo w segs v = Except.error e →
      dictSetGo d (pre ++ segs) v = Except.error e := by
  intro pre
  induction pre with
  | nil =>
    intro d w segs v _ hres hgo
    simp [resolvePath] at hres
    subst hres
    exact hgo
  | cons s pre ih =>
    intro d w segs v hne hres hgo
    rcases hseg : pyGetSegment d s with e' | child <;>
      simp [resolvePath, hseg] at hres
    have htail := ih child w segs v hne hres hgo
    rcases hps : pre ++ segs with _ | ⟨k', rest'⟩
    · rcases List.append_eq_nil.mp hps with ⟨-, h2⟩
      exact absurd h2 hne
    · rw [hps] at htail
      show dictSetGo d (s :: (pre ++ segs)) v = Except.error e
      rw [hps]
      simp [dictSetGo, hseg, htail]

theorem dictSetGo_cons_ok (d child child' : PyVal) (k : String)
    (segs : List String) (v : PyVal) (hne : segs ≠ [])
    (hseg : pyGetSegment d k = Except.ok child)
    (hgo : dictSetGo child segs v = Except.ok child') :
    dictSetGo d (k :: segs) v = pySetSegment d k child' := by
  rcases segs with _ | ⟨k', rest⟩
  · exact absurd rfl hne
  · simp [dictSetGo, hseg, hgo]

theorem dictSetGo_list_oob (l : List PyVal) (s : String)
    (rest : List String) (i : Int) (v : PyVal)
    (hi : pyInt s = Option.some i)
    (hn : normalizeIdx i l.length = Option.none) :
    dictSetGo (PyVal.list l) (s :: rest) v
      = Except.error (PathError.indexOutOfRange i) := by
  rcases rest with _ | ⟨k', rest'⟩
  · simp [dictSetGo, pySetSegment, hi, pyListSet, hn]
  · simp [dictSetGo, pyGetSegment, hi, pyListGet, hn]

/-- C6: `dict_set` splits the dotted path and descends segment by segment;
a final segment on a mapping is assigned under the string key (or the
integer key when the segment parses as an integer), overwriting any prior
value or creating the key (read-back yields the new value, every other key
is unchanged); a final numeric segment on a sequence writes an existing
index in place and fails with an index `PathError` out of bounds (indices
are never created); the whole call fails when a non-terminal segment
resolves to a value that is neither a mapping nor a sequence, or when a
numeric segment indexes a sequence out of bounds. -/
theorem dict_set_semantics (path : String) (v : PyVal) :
    (∀ d : PyVal, dict_set d path v = dictSetGo d (pySplitDot path) v)
    ∧ (∀ (d : List (PyKey × PyVal)) seg,
        dictSetGo (PyVal.dict d) [seg] v
          = Except.ok (PyVal.dict (pyDictSet d
            (match pyInt seg with
             | Option.some i => PyKey.int i
             | Option.none => PyKey.str seg) v)))
    ∧ (∀ (d : List (PyKey × PyVal)) k,
        pyDictGet (pyDictSet d k v) k = Option.some v)
    ∧ (∀ (d : List (PyKey × PyVal)) k k', k' ≠ k →
        pyDictGet (pyDictSet d k v) k' = pyDictGet d k')
    ∧ (∀ (l : List PyVal) seg i j, pyInt seg = Option.some i →
        normalizeIdx i l.length = Option.some j →
        dictSetGo (PyVal.list l) [seg] v
          = Except.ok (PyVal.list (l.set j v)))
    ∧ (∀ (l : List PyVal) seg i, pyInt seg = Option.some i →
        normalizeIdx i l.length = Option.none →
        dictSetGo (PyVal.list l) [seg] v
          = Except.error (PathError.indexOutOfRange i))
    ∧ (∀ (d w : PyVal) (pre : List String) s rest,
        resolvePath d (pre ++ [s]) = Except.ok w → isScalar w = true →
        rest ≠ [] →
        ∃ e, dictSetGo d (pre ++ s :: rest) v = Except.error e)
    ∧ (∀ (d : PyVal) (l : List PyVal) (pre : List String) s rest i,
        resolvePath d pre = Except.ok (PyVal.list l) →
        pyInt s = Option.some i → normalizeIdx i l.length = Option.none →
        dictSetGo d (pre ++ s :: rest) v
          = Except.error (PathError.indexOutOfRange i)) := by
  refine ⟨fun d => rfl, fun d seg => ?_, fun d k => pyDictGet_set_self d k v,
    fun d k k' h => pyDictGet_set_other d k k' v h,
    fun l seg i j hi hn => ?_, fun l seg i hi hn => ?_,
    fun d w pre s rest hres hsc hrest => ?_,
    fun d l pre s rest i hres hi hn => ?_⟩
  · rcases hpi : pyInt seg with _ | i <;>
      simp [dictSetGo, pySetSegment, hpi]
  · simp [dictSetGo, pySetSegment, hi, pyListSet, hn]
  · simp [dictSetGo, pySetSegment, hi, pyListSet, hn]
  · obtain ⟨e, he⟩ := dictSetGo_scalar_fail rest w v hrest hsc
    refine ⟨e, ?_⟩
    have h2 := dictSetGo_append_error e (pre ++ [s]) d w rest v hrest hres he
    simpa using h2
  · have hlist := dictSetGo_list_oob l s rest i v hi hn
    exact dictSetGo_append_error _ pre d (PyVal.list l) (s :: rest) v
      (by simp) hres hlist

/-- Witness for C6: writing index 0 of an empty sequence fails with an
index error, and a final write into a mapping is read back. -/
theorem dict_set_semantics_witness :
    (dictSetGo (PyVal.list []) ["0"] PyVal.none
      = Except.error (PathError.indexOutOfRange 0))
    ∧ pyDictGet (pyDictSet [] (PyKey.str "a") PyVal.none) (PyKey.str "a")
        = Option.some PyVal.none :=
  ⟨(dict_set_semantics "0" PyVal.none).2.2.2.2.2.1 [] "0" 0 rfl rfl,
    (dict_set_semantics "0" PyVal.none).2.2.1 [] (PyKey.str "a")⟩

/-- C7: patching path "spec.containers.0.image" on a template whose `spec`
mapping holds a non-empty `containers` sequence whose first entry is a
mapping sets exactly that entry's `image` field: reading `image` back on
container 0 yields the new value, while every other key of container 0,
every other container, every other key of `spec`, and every other key of
the document are unchanged. -/
theorem patch_image_frame (D S c0 : List (PyKey × PyVal)) (cs : List PyVal)
    (v : PyVal)
    (hspec : pyDictGet D (PyKey.str "spec") = Option.some (PyVal.dict S))
    (hcont : pyDictGet S (PyKey.str "containers")
      = Option.some (PyVal.list (PyVal.dict c0 :: cs))) :
    ∃ D' S' c0',
      dict_set (PyVal.dict D) "spec.containers.0.image" v
        = Except.ok (PyVal.dict D')
      ∧ pyDictGet D' (PyKey.str "spec") = Option.some (PyVal.dict S')
      ∧ (∀ k, k ≠ PyKey.str "spec" → pyDictGet D' k = pyDictGet D k)
      ∧ pyDictGet S' (PyKey.str "containers")
          = Option.some (PyVal.list (PyVal.dict c0' :: cs))
      ∧ (∀ k, k ≠ PyKey.str "containers" → pyDictGet S' k = pyDictGet S k)
      ∧ pyDictGet c0' (PyKey.str "image") = Option.some v
      ∧ (∀ k, k ≠ PyKey.str "image" → pyDictGet c0' k = pyDictGet c0 k) := by
  have hpi_spec : pyInt "spec" = Option.none := rfl
  have hpi_cont : pyInt "containers" = Option.none := rfl
  have hpi_img : pyInt "image" = Option.none := rfl
  have hpi_0 : pyInt "0" = Option.some 0 := rfl
  have hsplit : pySplitDot "spec.containers.0.image"
      = ["spec", "containers", "0", "image"] := rfl
  have hn0 : normalizeIdx 0 (cs.length + 1) = Option.some 0 := by
    simp [normalizeIdx]
  have hget0 : pyGetSegment (PyVal.list (PyVal.dict c0 :: cs)) "0"
      = Except.ok (PyVal.dict c0) := by
    simp [pyGetSegment, hpi_0, pyListGet, hn0]
  have hsegSpec : pyGetSegment (PyVal.dict D) "spec"
      = Except.ok (PyVal.dict S) := by
    simp [pyGetSegment, hpi_spec, hspec]
  have hsegCont : pyGetSegment (PyVal.dict S) "containers"
      = Except.ok (PyVal.list (PyVal.dict c0 :: cs)) := by
    simp [pyGetSegment, hpi_cont, hcont]
  have step_img : dictSetGo (PyVal.dict c0) ["image"] v
      = Except.ok (PyVal.dict (pyDictSet c0 (PyKey.str "image") v)) := by
    simp [dictSetGo, pySetSegment, hpi_img]
  have step_0 : dictSetGo (PyVal.list (PyVal.dict c0 :: cs)) ["0", "image"] v
      = Except.ok (PyVal.list
          (PyVal.dict (pyDictSet c0 (PyKey.str "image") v) :: cs)) := by
    rw [dictSetGo_cons_ok (PyVal.list (PyVal.dict c0 :: cs)) (PyVal.dict c0)
      (PyVal.dict (pyDictSet c0 (PyKey.str "image") v)) "0" ["image"] v
      (by simp) hget0 step_img]
    simp [pySetSegment, hpi_0, pyListSet, hn0]
  have step_cont : dictSetGo (PyVal.dict S) ["containers", "0", "image"] v
      = Except.ok (PyVal.dict (pyDictSet S (PyKey.str "containers")
          (PyVal.list
            (PyVal.dict (pyDictSet c0 (PyKey.str "image") v) :: cs)))) := by
    rw [dictSetGo_cons_ok (PyVal.dict S) (PyVal.list (PyVal.dict c0 :: cs))
      (PyVal.list (PyVal.dict (pyDictSet c0 (PyKey.str "image") v) :: cs))
      "containers" ["0", "image"] v (by simp) hsegCont step_0]
    simp [pySetSegment, hpi_cont]
  have step_spec :
      dictSetGo (PyVal.dict D) ["spec", "containers", "0", "image"] v
      = Except.ok (PyVal.dict (pyDictSet D (PyKey.str "spec")
          (PyVal.dict (pyDictSet S (PyKey.str "containers")
            (PyVal.list
              (PyVal.dict (pyDictSet c0 (PyKey.str "image") v) :: cs)))))) := by
    rw [dictSetGo_cons_ok (PyVal.dict D) (PyVal.dict S)
      (PyVal.dict (pyDictSet S (PyKey.str "containers")
        (PyVal.list (PyVal.dict (pyDictSet c0 (PyKey.str "image") v) :: cs))))
      "spec" ["containers", "0", "image"] v (by simp) hsegSpec step_cont]
    simp [pySetSegment, hpi_spec]
  refine ⟨_, _, _, ?_, pyDictGet_set_self D (PyKey.str "spec") _,
    fun k hk => pyDictGet_set_other D (PyKey.str "spec") k _ hk,
    pyDictGet_set_self S (PyKey.str "containers") _,
    fun k hk => pyDictGet_set_other S (PyKey.str "containers") k _ hk,
    pyDictGet_set_self c0 (PyKey.str "image") v,
    fun k hk => pyDictGet_set_other c0 (PyKey.str "image") k v hk⟩
  rw [dict_set, hsplit, step_spec]

/-- Witness for C7: a concrete two-field container whose `image` field is
patched. -/
theorem patch_image_frame_witness :
    ∃ D' S' c0',
      dict_set (PyVal.dict [(PyKey.str "spec", PyVal.dict
          [(PyKey.str "containers", PyVal.list [PyVal.dict
            [(PyKey.str "name", PyVal.str "train"),
             (PyKey.str "image", PyVal.str "old")]])])])
        "spec.containers.0.image" (PyVal.str "img:tag")
        = Except.ok (PyVal.dict D')
      ∧ pyDictGet D' (PyKey.str "spec") = Option.some (PyVal.dict S')
      ∧ (∀ k, k ≠ PyKey.str "spec" → pyDictGet D' k
          = pyDictGet [(PyKey.str "spec", PyVal.dict
              [(PyKey.str "containers", PyVal.list [PyVal.dict
                [(PyKey.str "name", PyVal.str "train"),
                 (PyKey.str "image", PyVal.str "old")]])])] k)
      ∧ pyDictGet S' (PyKey.str "containers")
          = Option.some (PyVal.list [PyVal.dict c0'])
      ∧ (∀ k, k ≠ PyKey.str "containers" → pyDictGet S' k
          = pyDictGet [(PyKey.str "containers", PyVal.list [PyVal.dict
              [(PyKey.str "name", PyVal.str "train"),
               (PyKey.str "image", PyVal.str "old")]])] k)
      ∧ pyDictGet c0' (PyKey.str "image")
          = Option.some (PyVal.str "img:tag")
      ∧ (∀ k, k ≠ PyKey.str "image" → pyDictGet c0' k
          = pyDictGet [(PyKey.str "name", PyVal.str "train"),
              (PyKey.str "image", PyVal.str "old")] k) :=
  patch_image_frame
    [(PyKey.str "spec", PyVal.dict
      [(PyKey.str "containers", PyVal.list [PyVal.dict
        [(PyKey.str "name", PyVal.str "train"),
         (PyKey.str "image", PyVal.str "old")]])])]
    [(PyKey.str "containers", PyVal.list [PyVal.dict
      [(PyKey.str "name", PyVal.str "train"),
       (PyKey.str "image", PyVal.str "old")]])]
    [(PyKey.str "name", PyVal.str "train"),
     (PyKey.str "image", PyVal.str "old")]
    [] (PyVal.str "img:tag") rfl rfl

/-- The content-hash pipeline of `K8sJobManager.train` (job_manager.py
lines 134-135): `yaml.safe_load`, then `yaml.safe_dump(…, sort_keys=True)`,
then `md5(…).hexdigest()`.  Parser, canonical dumper and digest are
external library functions, taken as arguments over an abstract value type
`V`; equality on `V` stands for Python value equality, under which the
sorted-keys dump is a function of the parsed value. -/
def contentHash {V : Type} (parse : String → V) (dump : V → String)
    (digest : String → String) (doc : String) : String :=
  digest (dump (parse doc))

/-- C8: two training-data documents that parse to the same structured
value receive the identical content hash, and hence the identical derived
model directory for the same project id. -/
theorem content_hash_deterministic {V : Type} (parse : String → V)
    (dump : V → String) (digest : String → String)
    (s3Dir projectId d1 d2 : String) (h : parse d1 = parse d2) :
    contentHash parse dump digest d1 = contentHash parse dump digest d2
    ∧ s3_model_dir s3Dir projectId (contentHash parse dump digest d1)
      = s3_model_dir s3Dir projectId (contentHash parse dump digest d2) := by
  unfold contentHash
  rw [h]
  exact ⟨rfl, rfl⟩

/-- Witness for C8: a toy whitespace-insensitive parser maps the two
differently formatted documents to the same value; the hash and the model
directory agree. -/
theorem content_hash_deterministic_witness :
    contentHash (fun s => String.mk (s.data.filter (fun c => c != ' ')))
        id id "a: 1"
      = contentHash (fun s => String.mk (s.data.filter (fun c => c != ' ')))
        id id "a:  1"
    ∧ s3_model_dir "models" "p1"
        (contentHash (fun s => String.mk (s.data.filter (fun c => c != ' ')))
          id id "a: 1")
      = s3_model_dir "models" "p1"
        (contentHash (fun s => String.mk (s.data.filter (fun c => c != ' ')))
          id id "a:  1") :=
  content_hash_deterministic
    (fun s => String.mk (s.data.filter (fun c => c != ' ')))
    id id "models" "p1" "a: 1" "a:  1" (by decide)

/-- `K8sJobManager.job_name` (job_manager.py lines 116-118). -/
def job_name (namePrefix jobId : String) : String :=
  namePrefix ++ "-job-" ++ jobId

/-- The delete request `cancel` issues (job_manager.py lines 260-262):
`delete_namespaced_job` on the job's name with
`V1DeleteOptions(propagation_policy='Background')`. -/
structure DeleteCall where
  jobName : String
  propagationPolicy : String
deriving DecidableEq, Repr

/-- `K8sJobManager.cancel` (job_manager.py lines 255-267) over the
orchestrator responses: `status` runs on the read response; unless it
reports `training`, `cancel` returns `false` issuing no delete.
Otherwise the background-propagation delete is issued: success → `true`,
a 404 (Job already gone) → `false`, any other API error propagates.  The
first component records the delete call issued, if any. -/
def cancel (namePrefix jobId : String)
    (readResp : Except Nat V1JobStatus) (deleteResp : Except Nat Unit) :
    Option DeleteCall × Except Nat Bool :=
  match statusApi readResp with
  | Except.error c => (Option.none, Except.error c)
  | Except.ok st =>
    if st ≠ Status.training then (Option.none, Except.ok false)
    else
      (Option.some ⟨job_name namePrefix jobId, "Background"⟩,
        match deleteResp with
        | Except.ok _ => Except.ok true
        | Except.error c =>
          if c = 404 then Except.ok false else Except.error c)

/-- A one-job view of the orchestrator's state: the Job object if it still
exists.  `read_namespaced_job` returns it or a 404. -/
def readJob (w : Option V1JobStatus) : Except Nat V1JobStatus :=
  match w with
  | Option.some j => Except.ok j
  | Option.none => Except.error 404

/-- Deleting the job from the one-job world: removes it; deleting an
absent job reports a 404. -/
def deleteJob (w : Option V1JobStatus) :
    Option V1JobStatus × Except Nat Unit :=
  match w with
  | Option.some _ => (Option.none, Except.ok ())
  | Option.none => (w, Except.error 404)

/-- `cancel` run against the one-job world: the delete takes effect on the
world exactly when `cancel` issues it. -/
def cancelW (namePrefix jobId : String) (w : Option V1JobStatus) :
    Option V1JobStatus × (Option DeleteCall × Except Nat Bool) :=
  let res := cancel namePrefix jobId (readJob w) (deleteJob w).2
  match res.1 with
  | Option.some _ => ((deleteJob w).1, res)
  | Option.none => (w, res)

/-- C9: `cancel` returns `false` issuing no delete whenever status is not
`training`; when status is `training` it issues exactly one delete, on the
job's name with background propagation, and returns `true` on success,
`false` when the orchestrator reports the Job already gone (404), and
propagates any other deletion error; consequently, in the one-job world, a
cancel that returned `true` leaves a world where a second cancel returns
`false`. -/
theorem cancel_semantics (namePrefix jobId : String)
    (readResp : Except Nat V1JobStatus) (deleteResp : Except Nat Unit)
    (st : Status) (w : Option V1JobStatus) (c : Nat) :
    (statusApi readResp = Except.ok st → st ≠ Status.training →
      cancel namePrefix jobId readResp deleteResp
        = (Option.none, Except.ok false))
    ∧ (statusApi readResp = Except.ok Status.training →
        (cancel namePrefix jobId readResp deleteResp).1
          = Option.some ⟨job_name namePrefix jobId, "Background"⟩)
    ∧ (statusApi readResp = Except.ok Status.training →
        deleteResp = Except.ok () →
        (cancel namePrefix jobId readResp deleteResp).2 = Except.ok true)
    ∧ (statusApi readResp = Except.ok Status.training →
        deleteResp = Except.error 404 →
        (cancel namePrefix jobId readResp deleteResp).2 = Except.ok false)
    ∧ (statusApi readResp = Except.ok Status.training →
        deleteResp = Except.error c → c ≠ 404 →
        (cancel namePrefix jobId readResp deleteResp).2 = Except.error c)
    ∧ ((cancelW namePrefix jobId w).2.2 = Except.ok true →
        (cancelW namePrefix jobId (cancelW namePrefix jobId w).1).2.2
          = Except.ok false) := by
  have hnone : cancelW namePrefix jobId Option.none
      = (Option.none, (Option.none, Except.ok false)) := rfl
  refine ⟨fun hst hne => ?_, fun hst => ?_, fun hst hd => ?_,
    fun hst hd => ?_, fun hst hd hc => ?_, fun htrue => ?_⟩
  · simp [cancel, hst, hne]
  · simp [cancel, hst]
  · subst hd
    simp [cancel, hst]
  · subst hd
    simp [cancel, hst]
  · subst hd
    simp [cancel, hst, hc]
  · rcases w with _ | j
    · rw [hnone] at htrue
      exact absurd htrue (by simp)
    · by_cases hst : statusOfJob (Option.some j) = Status.training
      · have hres : cancelW namePrefix jobId (Option.some j)
            = (Option.none,
              (Option.some ⟨job_name namePrefix jobId, "Background"⟩,
                Except.ok true)) := by
          simp [cancelW, cancel, readJob, deleteJob, statusApi, getJob,
            Except.map, hst]
        rw [hres]
        exact congrArg (fun p => p.2.2) hnone
      · have hres : cancelW namePrefix jobId (Option.some j)
            = (Option.some j, (Option.none, Except.ok false)) := by
          simp [cancelW, cancel, readJob, deleteJob, statusApi, getJob,
            Except.map, hst]
        rw [hres] at htrue
        exact absurd htrue (by simp)

/-- Witness for C9: a Job reporting active = 1 is cancelled with `true`;
repeating the cancel in the one-job world yields `false`. -/
theorem cancel_semantics_witness :
    ((cancel "et" "42"
        (Except.ok ⟨Option.some 1, Option.none, Option.none⟩)
        (Except.ok ())).2 = Except.ok true)
    ∧ ((cancelW "et" "42"
        (cancelW "et" "42"
          (Option.some ⟨Option.some 1, Option.none, Option.none⟩)).1).2.2
        = Except.ok false) :=
  ⟨(cancel_semantics "et" "42"
      (Except.ok ⟨Option.some 1, Option.none, Option.none⟩)
      (Except.ok ()) Status.training
      (Option.some ⟨Option.some 1, Option.none, Option.none⟩) 0).2.2.1
      rfl rfl,
    (cancel_semantics "et" "42"
      (Except.ok ⟨Option.some 1, Option.none, Option.none⟩)
      (Except.ok ()) Status.training
      (Option.some ⟨Option.some 1, Option.none, Option.none⟩) 0).2.2.2.2.2
      rfl⟩

end BET
